import Mathlib

/-!
Shallow embedding of `src/order_analysis.py` (Streamlit order-analysis
dashboard).  The analytical core — column validation, normalization,
filtering, and the country/product aggregations — is translated into
executable Lean definitions; the UI glue (widgets, charts) is out of scope.

Encoding choices:
* A raw cell that pandas would parse is modelled by the *result* of that
  parse: `orderdate : Option Int` is the outcome of
  `pd.to_datetime(·, errors="coerce")` (dates as ordinal integers, `none`
  = `NaT`), and `quantity : Option Int` the outcome of
  `pd.to_numeric(·, errors="coerce")` (`none` = `NaN`).
* `ref_total` is already a string after `.astype(str)`, so it is a
  `String` field; `Vip` is an integer flag, `Int`.
* pandas `Series.unique()` returns distinct values in first-encounter
  order: `firstUniques`.
* `groupby` sorts its keys ascending: `List.insertionSort (· ≤ ·)`.
* `sort_values(ascending=False)` computes an ascending argsort and
  reverses it (pandas `nargsort`); for the short frames involved numpy's
  default sort degenerates to a stable insertion sort, so it is modelled
  as a stable ascending sort followed by `reverse`: `sortValuesDesc`.
-/

namespace OrderAnalysis

/-- One raw CSV row after pandas' field-level parses (see module comment). -/
structure RawRow where
  id : Nat
  orderdate : Option Int
  quantity : Option Int
  shipcountrycode : String
  ref_total : String
  vip : Int
deriving DecidableEq, Repr

/-- One row of the canonical table after preprocessing (lines 50–57):
valid date, integer quantity, string product reference. -/
structure OrderRecord where
  id : Nat
  orderdate : Int
  quantity : Int
  shipcountrycode : String
  ref_total : String
  vip : Int
deriving DecidableEq, Repr

/-- The six required columns of line 32–39 (`expected_columns`). -/
def expectedColumns : List String :=
  ["ID", "orderdate", "quantity", "shipcountrycode", "ref_total", "Vip"]

/-- Lines 41–43: the expected columns absent from the uploaded frame. -/
def missingColumns (cols : List String) : List String :=
  expectedColumns.filter (fun c => decide (c ∉ cols))

/-- Lines 50–54: drop rows whose date failed to parse
(`dropna(subset=["orderdate"])`), coerce unparsable quantities to 0
(`fillna(0).astype(int)`); `ref_total` is kept as a string. -/
def normalize (rows : List RawRow) : List OrderRecord :=
  rows.filterMap (fun r =>
    r.orderdate.map (fun d =>
      { id := r.id, orderdate := d, quantity := r.quantity.getD 0,
        shipcountrycode := r.shipcountrycode, ref_total := r.ref_total,
        vip := r.vip }))

/-- Outcome of the upload/validation stage (lines 40–47): either a fatal
schema error naming the missing columns, or the canonical table. -/
inductive LoadResult where
  | schemaError (missing : List String)
  | ok (table : List OrderRecord)
deriving DecidableEq, Repr

/-- Lines 40–54: validate the columns, halting with the missing-column
message before any preprocessing; otherwise normalize. -/
def loadData (cols : List String) (rows : List RawRow) : LoadResult :=
  if missingColumns cols = [] then .ok (normalize rows)
  else .schemaError (missingColumns cols)

/-- Distinct values in first-encounter order, with an explicit seen
accumulator (pandas `Series.unique()`). -/
def firstUniquesAux {α : Type} [DecidableEq α] (seen : List α) : List α → List α
  | [] => []
  | x :: xs =>
      if x ∈ seen then firstUniquesAux seen xs
      else x :: firstUniquesAux (x :: seen) xs

/-- pandas `Series.unique()`: distinct values, first occurrence first. -/
def firstUniques {α : Type} [DecidableEq α] (l : List α) : List α :=
  firstUniquesAux [] l

/-- `data["shipcountrycode"].unique()` (lines 67, 78). -/
def uniqueCountryList (table : List OrderRecord) : List String :=
  firstUniques (table.map (fun r => r.shipcountrycode))

/-- `data["ref_total"].unique()` (lines 71, 80). -/
def uniqueRefList (table : List OrderRecord) : List String :=
  firstUniques (table.map (fun r => r.ref_total))

/-- The tri-state customer-type selection of line 61. -/
inductive VipFilter where
  | allCustomers
  | vipOnly
  | nonVipOnly
deriving DecidableEq, Repr

/-- The sidebar filter inputs (lines 61–74): inclusive date range, the
country and product-reference multiselections (possibly holding the
sentinels), and the customer-type choice. -/
structure FilterCriteria where
  dateStart : Int
  dateEnd : Int
  countries : List String
  refs : List String
  vipFilter : VipFilter
deriving DecidableEq, Repr

/-- Lines 77–78: a selection containing "All Countries" is replaced by the
full distinct-country list of the table. -/
def expandCountries (table : List OrderRecord) (sel : List String) : List String :=
  if "All Countries" ∈ sel then uniqueCountryList table else sel

/-- Lines 79–80: a selection containing "All Refs" is replaced by the full
distinct-reference list of the table. -/
def expandRefs (table : List OrderRecord) (sel : List String) : List String :=
  if "All Refs" ∈ sel then uniqueRefList table else sel

/-- Lines 82–87: conjunction of the inclusive date-range bounds and the
two `isin` membership tests against the expanded selections. -/
def filterBase (table : List OrderRecord) (c : FilterCriteria) : List OrderRecord :=
  table.filter (fun r =>
    decide (c.dateStart ≤ r.orderdate) && decide (r.orderdate ≤ c.dateEnd) &&
    (expandCountries table c.countries).contains r.shipcountrycode &&
    (expandRefs table c.refs).contains r.ref_total)

/-- Lines 82–93: the base filters followed by the VIP filter
(`Vip == 1` under "VIP", `Vip == 0` under "Non-VIP", nothing otherwise). -/
def filterData (table : List OrderRecord) (c : FilterCriteria) : List OrderRecord :=
  match c.vipFilter with
  | .vipOnly => (filterBase table c).filter (fun r => r.vip == 1)
  | .nonVipOnly => (filterBase table c).filter (fun r => r.vip == 0)
  | .allCustomers => filterBase table c

/-- `groupby("ID")` keys: distinct order IDs, sorted ascending. -/
def sortedOrderIDs (view : List OrderRecord) : List Nat :=
  (firstUniques (view.map (fun r => r.id))).insertionSort (· ≤ ·)

/-- Sum of `quantity` over the rows of one order
(`groupby("ID")["quantity"].sum()` for one key). -/
def orderTotal (view : List OrderRecord) (i : Nat) : Int :=
  ((view.filter (fun r => r.id == i)).map (fun r => r.quantity)).sum

/-- Line 108: `filtered_data["ID"].nunique()`. -/
def totalOrders (view : List OrderRecord) : Nat :=
  (firstUniques (view.map (fun r => r.id))).length

/-- Line 109: `filtered_data["shipcountrycode"].nunique()`. -/
def uniqueCountries (view : List OrderRecord) : Nat :=
  (firstUniques (view.map (fun r => r.shipcountrycode))).length

/-- Line 140: `filtered_data["quantity"].sum()`. -/
def totalQuantitySold (view : List OrderRecord) : Int :=
  (view.map (fun r => r.quantity)).sum

/-- Line 141: `filtered_data.groupby("ID")["quantity"].sum().mean()`; the
mean of an empty series is `NaN`, modelled as `none`. -/
def averageOrderSize (view : List OrderRecord) : Option ℚ :=
  let ids := sortedOrderIDs view
  if ids.isEmpty then none
  else some (((((ids.map (orderTotal view)).sum : Int) : ℚ)) / (ids.length : ℚ))

/-- pandas `sort_values(ascending=False)` on the value component: stable
ascending sort, then reverse (see module comment). -/
def sortValuesDesc {α β : Type} [LinearOrder β] (l : List (α × β)) : List (α × β) :=
  (l.insertionSort (fun a b => a.2 ≤ b.2)).reverse

/-- Lexicographic comparison of character lists by code point — how
Python's `<` compares the strings that `sorted` orders. -/
def charListLt : List Char → List Char → Bool
  | [], [] => false
  | [], _ :: _ => true
  | _ :: _, [] => false
  | a :: as, b :: bs =>
      if a < b then true
      else if b < a then false
      else charListLt as bs

/-- Strict lexicographic order on strings (Python `<`). -/
def refLT (a b : String) : Prop := charListLt a.data b.data = true

instance : DecidableRel refLT :=
  fun a b => inferInstanceAs (Decidable (charListLt a.data b.data = true))

/-- The non-strict order `a ≤ b ↔ ¬ b < a` under which Python's stable
`sorted` is modelled by a stable insertion sort. -/
def refLE (a b : String) : Prop := charListLt b.data a.data = false

instance : DecidableRel refLE :=
  fun a b => inferInstanceAs (Decidable (charListLt b.data a.data = false))

/-- Per-reference quantity sum (`groupby("ref_total")["quantity"].sum()`
for one key). -/
def refQuantity (view : List OrderRecord) (ref : String) : Int :=
  ((view.filter (fun r => r.ref_total == ref)).map (fun r => r.quantity)).sum

/-- Lines 147–153: group by `ref_total` (keys sorted by `groupby`), sum
quantity, sort descending by the sum, keep the first 10. -/
def popularProducts (view : List OrderRecord) : List (String × Int) :=
  let refs := (firstUniques (view.map (fun r => r.ref_total))).insertionSort refLE
  (sortValuesDesc (refs.map (fun s => (s, refQuantity view s)))).take 10

/-- Line 168: `groupby("ID")["ref_total"].apply(list)` — for each order ID
in sorted key order, the list of its product references in row order. -/
def orderGroups (view : List OrderRecord) : List (List String) :=
  (sortedOrderIDs view).map (fun i =>
    (view.filter (fun r => r.id == i)).map (fun r => r.ref_total))

/-- `itertools.combinations(l, 2)`: ordered positional pairs (i < j). -/
def pairs2 {α : Type} : List α → List (α × α)
  | [] => []
  | x :: xs => xs.map (fun y => (x, y)) ++ pairs2 xs

/-- One `Counter.update` step for a single key: bump the existing entry or
append a fresh one (Python `Counter` preserves insertion order). -/
def counterBump (c : List ((String × String) × Nat)) (k : String × String) :
    List ((String × String) × Nat) :=
  if k ∈ c.map (fun p => p.1) then
    c.map (fun p => if p.1 = k then (p.1, p.2 + 1) else p)
  else c ++ [(k, 1)]

/-- Lines 169–171: for each order group, update the counter with all
2-combinations of the sorted reference list. -/
def cooccurrences (view : List OrderRecord) : List ((String × String) × Nat) :=
  (orderGroups view).foldl
    (fun c g => (pairs2 (g.insertionSort refLE)).foldl counterBump c) []

/-- Lines 172–177: the co-occurrence table sorted descending by count. -/
def cooccurrenceDF (view : List OrderRecord) : List ((String × String) × Nat) :=
  sortValuesDesc (cooccurrences view)

/-- Everything the two analysis branches display, or the empty-result
notice of lines 95–99. -/
inductive AnalysisOutcome where
  | emptyResult
  | results (tOrders : Nat) (uCountries : Nat) (tQuantity : Int)
      (avgOrderSize : Option ℚ) (popular : List (String × Int))
      (coocc : List ((String × String) × Nat))
deriving DecidableEq, Repr

/-- Lines 95–179 applied to an already-filtered view: stop with the
empty-result notice, or compute every displayed aggregate. -/
def analyzeView (view : List OrderRecord) : AnalysisOutcome :=
  if view.isEmpty then .emptyResult
  else
    .results (totalOrders view) (uniqueCountries view) (totalQuantitySold view)
      (averageOrderSize view) (popularProducts view) (cooccurrenceDF view)

/-- The analysis run for one table and one set of filter choices. -/
def analyze (table : List OrderRecord) (c : FilterCriteria) : AnalysisOutcome :=
  analyzeView (filterData table c)

/-- Modelled from the spec (§4.4): the per-order quantity totals, grouping
rows by orderID as key — the spec-side reference for `averageOrderSize`. -/
def specPerOrderTotals (view : List OrderRecord) : List Int :=
  (firstUniques (view.map (fun r => r.id))).map (orderTotal view)

/-- Modelled from the spec (§4.4): the arithmetic mean of a list of
integers, as a rational. -/
def specMean (l : List Int) : ℚ :=
  ((l.sum : Int) : ℚ) / (l.length : ℚ)

/-- Modelled from the spec (§4.4): `averageOrderSize` as the spec words
it — the mean of the per-order quantity totals. -/
def specAverageOrderSize (view : List OrderRecord) : ℚ :=
  specMean (specPerOrderTotals view)

/-- Canonical (lexicographic) order on canonicalized pairs, as a Boolean:
the tie order the spec prescribes for equal-count co-occurrence pairs. -/
def pairLEb (p q : String × String) : Bool :=
  charListLt p.1.data q.1.data ||
    (p.1 == q.1 && !(charListLt q.2.data p.2.data))

/-- Modelled from the spec (§4.4 output ordering): descending by count,
with equal counts ordered by the canonical pair order. -/
def descendingWithCanonicalTies (l : List ((String × String) × Nat)) : Prop :=
  l.Pairwise (fun a b => b.2 < a.2 ∨ (a.2 = b.2 ∧ pairLEb a.1 b.1 = true))

instance (l : List ((String × String) × Nat)) : Decidable (descendingWithCanonicalTies l) :=
  inferInstanceAs (Decidable (l.Pairwise
    (fun a b : (String × String) × Nat => b.2 < a.2 ∨ (a.2 = b.2 ∧ pairLEb a.1 b.1 = true))))

/-- The three-row example table of spec §8 (dates encoded as ordinals:
2024-01-01 ↦ 0, 2024-01-02 ↦ 1). -/
def exampleTable : List OrderRecord :=
  [⟨1, 0, 2, "US", "A", 1⟩, ⟨1, 0, 1, "US", "B", 1⟩, ⟨2, 1, 4, "FR", "A", 0⟩]

/-- "No filters": the default widget state — full date range, both
sentinels selected, all customers. -/
def noFilterCriteria : FilterCriteria :=
  ⟨0, 1, ["All Countries"], ["All Refs"], .allCustomers⟩

/-- A date range whose intersection with the data is empty (start after
end), with every other filter wide open. -/
def emptyRangeCriteria : FilterCriteria :=
  ⟨5, 3, ["All Countries"], ["All Refs"], .allCustomers⟩

/-- One order with two rows of the same product reference. -/
def dupRefRows : List OrderRecord :=
  [⟨7, 0, 1, "US", "A", 0⟩, ⟨7, 0, 2, "US", "A", 0⟩]

/-- Two orders, totals 3 and 5, for the average-order-size example. -/
def twoOrderView : List OrderRecord :=
  [⟨1, 0, 3, "US", "A", 1⟩, ⟨2, 0, 5, "US", "A", 1⟩]

/-- Two orders producing the tied pairs (A,B) and (B,C), each counted
once, with (A,B) encountered first. -/
def tieTable : List OrderRecord :=
  [⟨1, 0, 1, "US", "A", 0⟩, ⟨1, 0, 1, "US", "B", 0⟩,
   ⟨2, 0, 1, "US", "B", 0⟩, ⟨2, 0, 1, "US", "C", 0⟩]

/-- Criteria selecting VIP customers only, everything else wide open. -/
def vipOnlyCriteria : FilterCriteria :=
  ⟨0, 1, ["All Countries"], ["All Refs"], .vipOnly⟩

/-- Criteria selecting non-VIP customers only, everything else wide open. -/
def nonVipOnlyCriteria : FilterCriteria :=
  ⟨0, 1, ["All Countries"], ["All Refs"], .nonVipOnly⟩

/-- A row whose Vip flag is outside {0, 1}. -/
def vipTwoRow : OrderRecord := ⟨1, 0, 1, "US", "A", 2⟩

/-- A raw row whose quantity cell parses to the negative number −3. -/
def negQtyRow : RawRow := ⟨1, some 0, some (-3), "US", "A", 1⟩

instance {α β : Type} [LinearOrder β] : IsTotal (α × β) (fun a b : α × β => a.2 ≤ b.2) :=
  ⟨fun a b => le_total a.2 b.2⟩

instance {α β : Type} [LinearOrder β] : IsTrans (α × β) (fun a b : α × β => a.2 ≤ b.2) :=
  ⟨fun _ _ _ hab hbc => le_trans hab hbc⟩

theorem charListLt_irrefl : ∀ l : List Char, charListLt l l = false
  | [] => rfl
  | a :: as => by simp [charListLt, lt_irrefl, charListLt_irrefl as]

theorem charListLt_asymm : ∀ {l₁ l₂ : List Char},
    charListLt l₁ l₂ = true → charListLt l₂ l₁ = false
  | [], [], h => by simp [charListLt] at h
  | [], _ :: _, _ => rfl
  | _ :: _, [], h => by simp [charListLt] at h
  | a :: as, b :: bs, h => by
      rcases lt_trichotomy a b with hab | hab | hab
      · simp [charListLt, hab, lt_asymm hab]
      · subst hab
        simp only [charListLt, lt_irrefl, if_false] at h ⊢
        exact charListLt_asymm h
      · simp [charListLt, hab, lt_asymm hab] at h

theorem charListLt_trans : ∀ {l₁ l₂ l₃ : List Char},
    charListLt l₁ l₂ = true → charListLt l₂ l₃ = true → charListLt l₁ l₃ = true
  | [], [], _, h1, _ => by simp [charListLt] at h1
  | [], _ :: _, [], _, h2 => by simp [charListLt] at h2
  | [], _ :: _, _ :: _, _, _ => rfl
  | _ :: _, [], _, h1, _ => by simp [charListLt] at h1
  | _ :: _, _ :: _, [], _, h2 => by simp [charListLt] at h2
  | a :: as, b :: bs, c :: cs, h1, h2 => by
      rcases lt_trichotomy a b with hab | hab | hab
      · rcases lt_trichotomy b c with hbc | hbc | hbc
        · simp [charListLt, lt_trans hab hbc]
        · subst hbc
          simp [charListLt, hab]
        · simp [charListLt, hbc, lt_asymm hbc] at h2
      · subst hab
        rcases lt_trichotomy a c with hac | hac | hac
        · simp [charListLt, hac]
        · subst hac
          simp only [charListLt, lt_irrefl, if_false] at h1 h2 ⊢
          exact charListLt_trans h1 h2
        · simp [charListLt, hac, lt_asymm hac] at h2
      · simp [charListLt, hab, lt_asymm hab] at h1

theorem refLT_asymm {a b : String} (h : refLT a b) : refLE a b :=
  charListLt_asymm h

theorem refLE_refl (a : String) : refLE a a :=
  charListLt_irrefl a.data

theorem refLT_trans {a b c : String} (h₁ : refLT a b) (h₂ : refLT b c) : refLT a c :=
  charListLt_trans h₁ h₂

theorem refLT_ne {a b : String} (h : refLT a b) : a ≠ b := by
  intro he
  subst he
  have h' : charListLt a.data a.data = true := h
  rw [charListLt_irrefl] at h'
  exact Bool.false_ne_true h'

/-- C3: on the three-row example with no filters applied, the aggregators
return totalOrders = 2, uniqueCountries = 2, totalQuantitySold = 7,
popularProducts = [(A,6), (B,1)] and cooccurrences = [((A,B),1)]. -/
theorem example_run_metrics :
    totalOrders (filterData exampleTable noFilterCriteria) = 2
    ∧ uniqueCountries (filterData exampleTable noFilterCriteria) = 2
    ∧ totalQuantitySold (filterData exampleTable noFilterCriteria) = 7
    ∧ popularProducts (filterData exampleTable noFilterCriteria) = [("A", 6), ("B", 1)]
    ∧ cooccurrenceDF (filterData exampleTable noFilterCriteria) = [(("A", "B"), 1)] := by
  decide

/-- C1 (counterexample): an order with two rows of the same product
reference contributes the self-pair (A,A) — not zero pairs as the claim
states for an order with a single distinct reference. -/
theorem cooccurrences_duplicate_ref_counterexample :
    cooccurrences dupRefRows = [(("A", "A"), 1)]
    ∧ cooccurrences dupRefRows ≠ [] := by
  decide

/-- C1 (amended): the aggregation groups rows by orderID into per-order
lists of productRef values with multiplicity (not distinct sets); an order
whose three rows carry the distinct references X < Y < Z contributes
exactly the pairs (X,Y), (X,Z), (Y,Z); an order with fewer than two rows
contributes no pairs; and an order with two rows of one repeated
reference W contributes the single self-pair (W,W). -/
theorem cooccurrences_per_order_lists_amended
    (n : Nat) (d1 d2 d3 q1 q2 q3 : Int) (co1 co2 co3 : String) (v1 v2 v3 : Int)
    (X Y Z : String) (hXY : refLT X Y) (hYZ : refLT Y Z) :
    cooccurrences
        [⟨n, d1, q1, co1, X, v1⟩, ⟨n, d2, q2, co2, Y, v2⟩, ⟨n, d3, q3, co3, Z, v3⟩]
      = [((X, Y), 1), ((X, Z), 1), ((Y, Z), 1)]
    ∧ (∀ r : OrderRecord, cooccurrences [r] = [])
    ∧ (∀ (m : Nat) (e1 e2 p1 p2 : Int) (k1 k2 : String) (w1 w2 : Int) (W : String),
        cooccurrences [⟨m, e1, p1, k1, W, w1⟩, ⟨m, e2, p2, k2, W, w2⟩]
          = [((W, W), 1)]) := by
  refine ⟨?_, ?_, ?_⟩
  · have hXZ : refLT X Z := refLT_trans hXY hYZ
    have hsorted : List.Sorted refLE [X, Y, Z] := by
      refine List.pairwise_cons.mpr ⟨?_, List.pairwise_cons.mpr ⟨?_, List.pairwise_singleton _ _⟩⟩
      · intro b hb
        rcases List.mem_cons.mp hb with hb | hb
        · exact hb ▸ refLT_asymm hXY
        · rw [List.mem_singleton.mp hb]
          exact refLT_asymm hXZ
      · intro b hb
        rw [List.mem_singleton.mp hb]
        exact refLT_asymm hYZ
    have hsort : List.insertionSort refLE [X, Y, Z] = [X, Y, Z] :=
      hsorted.insertionSort_eq
    have hid : List.insertionSort (fun a b : Nat => a ≤ b) [n] = [n] := rfl
    simp [cooccurrences, orderGroups, sortedOrderIDs, firstUniques, firstUniquesAux,
      pairs2, counterBump, hsort, hid, refLT_ne hXY, refLT_ne hYZ, refLT_ne hXZ,
      (refLT_ne hXY).symm, (refLT_ne hYZ).symm, (refLT_ne hXZ).symm,
      -List.insertionSort, -List.orderedInsert]
  · intro r
    simp [cooccurrences, orderGroups, sortedOrderIDs, firstUniques, firstUniquesAux, pairs2,
      -List.insertionSort, -List.orderedInsert,
      show List.insertionSort (fun a b : Nat => a ≤ b) [r.id] = [r.id] from rfl,
      show List.insertionSort refLE [r.ref_total] = [r.ref_total] from rfl]
  · intro m e1 e2 p1 p2 k1 k2 w1 w2 W
    have hsorted : List.Sorted refLE [W, W] := by
      refine List.pairwise_cons.mpr ⟨?_, List.pairwise_singleton _ _⟩
      intro b hb
      rw [List.mem_singleton.mp hb]
      exact refLE_refl W
    have hsort : List.insertionSort refLE [W, W] = [W, W] := hsorted.insertionSort_eq
    have hid : List.insertionSort (fun a b : Nat => a ≤ b) [m] = [m] := rfl
    simp [cooccurrences, orderGroups, sortedOrderIDs, firstUniques, firstUniquesAux,
      pairs2, counterBump, hsort, hid, -List.insertionSort, -List.orderedInsert]

/-- Witness for C1 (amended) at concrete references A < B < C. -/
theorem cooccurrences_per_order_lists_amended_witness :
    cooccurrences
        [⟨5, 0, 1, "US", "A", 0⟩, ⟨5, 0, 1, "US", "B", 0⟩, ⟨5, 0, 1, "US", "C", 0⟩]
      = [(("A", "B"), 1), (("A", "C"), 1), (("B", "C"), 1)] :=
  (cooccurrences_per_order_lists_amended 5 0 0 0 1 1 1 "US" "US" "US" 0 0 0
    "A" "B" "C" (by decide) (by decide)).1

/-- C2 (counterexample): a raw row whose quantity parses to −3 survives
normalization with a negative quantity, refuting the non-negativity half
of the claimed invariant. -/
theorem normalize_negative_quantity_counterexample :
    (normalize [negQtyRow]).map (fun r => r.quantity) = [-3]
    ∧ ¬ (∀ r ∈ normalize [negQtyRow], 0 ≤ r.quantity) := by
  decide

/-- C2 (amended): every canonical record comes from a raw row whose date
parsed successfully, its quantity is the parsed integer with unparsable
values coerced to 0 (never dropped, but possibly negative); exactly the
rows with parsable dates survive; and the Filter Engine only ever keeps
records of the table, so any per-record invariant carries over to every
filtered view. -/
theorem normalize_invariant_amended (rows : List RawRow) (table : List OrderRecord)
    (c : FilterCriteria) :
    (∀ r ∈ normalize rows, ∃ raw ∈ rows,
        raw.orderdate = some r.orderdate ∧ r.quantity = raw.quantity.getD 0)
    ∧ (normalize rows).length = (rows.filter (fun r => r.orderdate.isSome)).length
    ∧ (∀ r ∈ filterData table c, r ∈ table) := by
  refine ⟨?_, ?_, ?_⟩
  · intro r hr
    rcases List.mem_filterMap.mp hr with ⟨raw, hraw, heq⟩
    rcases Option.map_eq_some'.mp heq with ⟨d, hd, hrec⟩
    subst hrec
    exact ⟨raw, hraw, hd, rfl⟩
  · induction rows with
    | nil => rfl
    | cons a t ih =>
        cases ha : a.orderdate <;>
          simp [normalize, List.filterMap_cons, ha, List.filter_cons, ih,
            Option.isSome] <;>
          simpa [normalize] using ih
  · intro r hr
    have hbase : ∀ s ∈ filterBase table c, s ∈ table :=
      fun s hs => (List.mem_filter.mp hs).1
    cases hv : c.vipFilter <;> simp only [filterData, hv] at hr
    case allCustomers => exact hbase r hr
    case vipOnly => exact hbase r (List.mem_filter.mp hr).1
    case nonVipOnly => exact hbase r (List.mem_filter.mp hr).1

/-- Witness for C2 (amended): a record kept by a wide-open filter is a
record of the table. -/
theorem normalize_invariant_amended_witness :
    (⟨1, 0, 2, "US", "A", 1⟩ : OrderRecord) ∈ exampleTable :=
  (normalize_invariant_amended [] exampleTable noFilterCriteria).2.2 _ (by decide)

/-- C4: for every non-empty filtered view, averageOrderSize is the
arithmetic mean of the per-order quantity totals (rows grouped by orderID,
not per row); in particular on a view with two orders whose totals are 3
and 5 it equals 4. -/
theorem averageOrderSize_is_mean_of_order_totals :
    (∀ view : List OrderRecord, view ≠ [] →
        averageOrderSize view = some (specAverageOrderSize view))
    ∧ averageOrderSize twoOrderView = some 4 := by
  constructor
  · intro view h
    unfold specAverageOrderSize specMean specPerOrderTotals
    have hperm : List.Perm
        ((firstUniques (view.map (fun r => r.id))).insertionSort (· ≤ ·))
        (firstUniques (view.map (fun r => r.id))) := List.perm_insertionSort _ _
    have hne : firstUniques (view.map (fun r => r.id)) ≠ [] := by
      cases view with
      | nil => exact absurd rfl h
      | cons a t => simp [firstUniques, firstUniquesAux]
    have hlen : ((firstUniques (view.map (fun r => r.id))).insertionSort (· ≤ ·)).length
        = (firstUniques (view.map (fun r => r.id))).length := List.length_insertionSort _ _
    have hempty : ((firstUniques (view.map (fun r => r.id))).insertionSort (· ≤ ·)).isEmpty
        = false := by
      rw [List.isEmpty_eq_false]
      intro hc
      apply hne
      have hl := congrArg List.length hc
      rw [hlen] at hl
      simp only [List.length_nil] at hl
      exact List.length_eq_zero.mp hl
    have hsum : (((firstUniques (view.map (fun r => r.id))).insertionSort (· ≤ ·)).map
          (orderTotal view)).sum
        = ((firstUniques (view.map (fun r => r.id))).map (orderTotal view)).sum :=
      (hperm.map _).sum_eq
    simp only [averageOrderSize, sortedOrderIDs, hempty, Bool.false_eq_true, if_false,
      hsum, hlen, List.length_map]
  · norm_num [averageOrderSize, sortedOrderIDs, firstUniques, firstUniquesAux, orderTotal,
      twoOrderView, List.insertionSort, List.orderedInsert]

/-- Witness for C4: the general clause applied to the concrete two-order
view. -/
theorem averageOrderSize_is_mean_of_order_totals_witness :
    averageOrderSize twoOrderView = some (specAverageOrderSize twoOrderView) :=
  averageOrderSize_is_mean_of_order_totals.1 twoOrderView (by decide)

/-- C5: filtering with the "All Countries" (resp. "All Refs") sentinel
yields exactly the same filtered view — and hence the same analysis
outcome — as supplying the full observed distinct-value list explicitly. -/
theorem sentinel_equals_explicit_full_set (table : List OrderRecord) (c : FilterCriteria) :
    (filterData table { c with countries := ["All Countries"] }
        = filterData table { c with countries := uniqueCountryList table }
      ∧ analyze table { c with countries := ["All Countries"] }
        = analyze table { c with countries := uniqueCountryList table })
    ∧ (filterData table { c with refs := ["All Refs"] }
        = filterData table { c with refs := uniqueRefList table }
      ∧ analyze table { c with refs := ["All Refs"] }
        = analyze table { c with refs := uniqueRefList table }) := by
  obtain ⟨ds, de, cs, rs, v⟩ := c
  have hc1 : expandCountries table ["All Countries"] = uniqueCountryList table := by
    simp [expandCountries]
  have hc2 : expandCountries table (uniqueCountryList table) = uniqueCountryList table := by
    unfold expandCountries
    split <;> rfl
  have hr1 : expandRefs table ["All Refs"] = uniqueRefList table := by
    simp [expandRefs]
  have hr2 : expandRefs table (uniqueRefList table) = uniqueRefList table := by
    unfold expandRefs
    split <;> rfl
  have hbc : filterBase table ⟨ds, de, ["All Countries"], rs, v⟩
      = filterBase table ⟨ds, de, uniqueCountryList table, rs, v⟩ := by
    simp only [filterBase, hc1, hc2]
  have hbr : filterBase table ⟨ds, de, cs, ["All Refs"], v⟩
      = filterBase table ⟨ds, de, cs, uniqueRefList table, v⟩ := by
    simp only [filterBase, hr1, hr2]
  have hfc : filterData table ⟨ds, de, ["All Countries"], rs, v⟩
      = filterData table ⟨ds, de, uniqueCountryList table, rs, v⟩ := by
    cases v <;> simp [filterData, hbc]
  have hfr : filterData table ⟨ds, de, cs, ["All Refs"], v⟩
      = filterData table ⟨ds, de, cs, uniqueRefList table, v⟩ := by
    cases v <;> simp [filterData, hbr]
  exact ⟨⟨hfc, congrArg analyzeView hfc⟩, ⟨hfr, congrArg analyzeView hfr⟩⟩

/-- C6: when the filter conjunction matches zero rows the pipeline
reports the empty-result notice and no aggregation runs; the mean of the
empty grouped series is the undefined value, never a crash. -/
theorem empty_filter_no_aggregation (table : List OrderRecord) (c : FilterCriteria)
    (h : filterData table c = []) :
    analyze table c = .emptyResult
    ∧ averageOrderSize (filterData table c) = none := by
  constructor
  · show analyzeView (filterData table c) = .emptyResult
    rw [h]
    rfl
  · rw [h]
    rfl

/-- Witness for C6: an empty date-range intersection on the example
table. -/
theorem empty_filter_no_aggregation_witness :
    analyze exampleTable emptyRangeCriteria = .emptyResult
    ∧ averageOrderSize (filterData exampleTable emptyRangeCriteria) = none :=
  empty_filter_no_aggregation exampleTable emptyRangeCriteria (by decide)

/-- C7: a missing required column makes loading fail with a schema error
naming exactly the expected columns absent from the upload, before any
normalization; when all six are present no schema error is raised. -/
theorem schema_validation (cols : List String) (rows : List RawRow) :
    ((∃ col ∈ expectedColumns, col ∉ cols) →
        loadData cols rows = .schemaError (missingColumns cols))
    ∧ ((∀ col ∈ expectedColumns, col ∈ cols) →
        loadData cols rows = .ok (normalize rows))
    ∧ (∀ col, col ∈ missingColumns cols ↔ col ∈ expectedColumns ∧ col ∉ cols) := by
  refine ⟨?_, ?_, ?_⟩
  · rintro ⟨col, hce, hcc⟩
    have hmem : col ∈ missingColumns cols := by
      simp [missingColumns, List.mem_filter, hce, hcc]
    have hne : missingColumns cols ≠ [] := by
      intro hnil
      rw [hnil] at hmem
      exact List.not_mem_nil col hmem
    rw [loadData, if_neg hne]
  · intro hall
    have hnil : missingColumns cols = [] := by
      simp only [missingColumns, List.filter_eq_nil_iff, decide_eq_true_eq]
      intro a ha hna
      exact hna (hall a ha)
    rw [loadData, if_pos hnil]
  · intro col
    simp [missingColumns, List.mem_filter]

/-- Witness for C7: two columns present, four missing; and the full
column set loading cleanly. -/
theorem schema_validation_witness :
    loadData ["ID", "orderdate"] [] = .schemaError (missingColumns ["ID", "orderdate"])
    ∧ loadData expectedColumns [] = .ok (normalize []) :=
  ⟨(schema_validation ["ID", "orderdate"] []).1 ⟨"quantity", by decide, by decide⟩,
   (schema_validation expectedColumns []).2.1 (fun col hc => hc)⟩

/-- C8: under VipOnly a row is kept iff its Vip value equals 1, under
NonVipOnly iff it equals 0, and under All no VIP condition is applied; a
row whose Vip value is outside {0, 1} is excluded by both restricted
modes. -/
theorem vip_filter_strict_equality (table : List OrderRecord) (c : FilterCriteria)
    (r : OrderRecord) :
    (c.vipFilter = .vipOnly →
        (r ∈ filterData table c ↔ r ∈ filterBase table c ∧ r.vip = 1))
    ∧ (c.vipFilter = .nonVipOnly →
        (r ∈ filterData table c ↔ r ∈ filterBase table c ∧ r.vip = 0))
    ∧ (c.vipFilter = .allCustomers →
        (r ∈ filterData table c ↔ r ∈ filterBase table c))
    ∧ (r.vip ≠ 0 → r.vip ≠ 1 → c.vipFilter ≠ .allCustomers →
        r ∉ filterData table c) := by
  refine ⟨?_, ?_, ?_, ?_⟩
  · intro hv
    simp [filterData, hv, List.mem_filter]
  · intro hv
    simp [filterData, hv, List.mem_filter]
  · intro hv
    simp [filterData, hv]
  · intro h0 h1 hall hmem
    cases hv : c.vipFilter
    case allCustomers => exact hall hv
    case vipOnly =>
      simp only [filterData, hv, List.mem_filter, beq_iff_eq] at hmem
      exact h1 hmem.2
    case nonVipOnly =>
      simp only [filterData, hv, List.mem_filter, beq_iff_eq] at hmem
      exact h0 hmem.2

/-- Witness for C8: a row with Vip = 2 is excluded under both the VIP and
the Non-VIP selections. -/
theorem vip_filter_strict_equality_witness :
    vipTwoRow ∉ filterData [vipTwoRow] vipOnlyCriteria
    ∧ vipTwoRow ∉ filterData [vipTwoRow] nonVipOnlyCriteria :=
  ⟨(vip_filter_strict_equality [vipTwoRow] vipOnlyCriteria vipTwoRow).2.2.2
      (by decide) (by decide) (by decide),
   (vip_filter_strict_equality [vipTwoRow] nonVipOnlyCriteria vipTwoRow).2.2.2
      (by decide) (by decide) (by decide)⟩

/-- C9 (counterexample): on `tieTable` the pairs (A,B) and (B,C) both have
count 1, the canonical pair order puts (A,B) first, yet the output lists
(B,C) first — ties are not ordered by the canonical pair ordering. -/
theorem cooccurrenceDF_tie_order_counterexample :
    cooccurrenceDF tieTable = [(("B", "C"), 1), (("A", "B"), 1)]
    ∧ pairLEb ("A", "B") ("B", "C") = true
    ∧ ¬ descendingWithCanonicalTies (cooccurrenceDF tieTable) := by
  decide

/-- C9 (amended): the co-occurrence output is sorted in descending order
of count; the order of equal-count pairs is deterministic (a pure function
of the view) but is not the canonical pair ordering. -/
theorem cooccurrenceDF_sorted_descending_amended (view : List OrderRecord) :
    (cooccurrenceDF view).Pairwise (fun a b => b.2 ≤ a.2) := by
  have hs : List.Sorted (fun a b : (String × String) × Nat => a.2 ≤ b.2)
      (List.insertionSort (fun a b => a.2 ≤ b.2) (cooccurrences view)) :=
    List.sorted_insertionSort _ _
  simpa [cooccurrenceDF, sortValuesDesc] using List.pairwise_reverse.mpr hs

/-- C10: whenever the sentinel is part of the selection, the explicit
choices are ignored: the expanded selection is the full observed
distinct-value list, and the filtered view coincides with the one for the
sentinel alone. -/
theorem sentinel_overrides_explicit (table : List OrderRecord) (c : FilterCriteria) :
    ("All Countries" ∈ c.countries →
        expandCountries table c.countries = uniqueCountryList table
        ∧ filterData table c = filterData table { c with countries := ["All Countries"] })
    ∧ ("All Refs" ∈ c.refs →
        expandRefs table c.refs = uniqueRefList table
        ∧ filterData table c = filterData table { c with refs := ["All Refs"] }) := by
  obtain ⟨ds, de, cs, rs, v⟩ := c
  constructor
  · intro hmem
    have he : expandCountries table cs = uniqueCountryList table := if_pos hmem
    have hs : expandCountries table ["All Countries"] = uniqueCountryList table := by
      simp [expandCountries]
    have hb : filterBase table ⟨ds, de, cs, rs, v⟩
        = filterBase table ⟨ds, de, ["All Countries"], rs, v⟩ := by
      simp only [filterBase, he, hs]
    refine ⟨he, ?_⟩
    cases v <;> simp [filterData, hb]
  · intro hmem
    have he : expandRefs table rs = uniqueRefList table := if_pos hmem
    have hs : expandRefs table ["All Refs"] = uniqueRefList table := by
      simp [expandRefs]
    have hb : filterBase table ⟨ds, de, cs, rs, v⟩
        = filterBase table ⟨ds, de, cs, ["All Refs"], v⟩ := by
      simp only [filterBase, he, hs]
    refine ⟨he, ?_⟩
    cases v <;> simp [filterData, hb]

/-- Witness for C10: the sentinel plus an explicit country still expands
to the full observed country list of the example table. -/
theorem sentinel_overrides_explicit_witness :
    expandCountries exampleTable ["All Countries", "FR"] = uniqueCountryList exampleTable
    ∧ filterData exampleTable ⟨0, 1, ["All Countries", "FR"], ["All Refs"], .allCustomers⟩
      = filterData exampleTable
          ⟨0, 1, ["All Countries"], ["All Refs"], .allCustomers⟩ :=
  (sentinel_overrides_explicit exampleTable
    ⟨0, 1, ["All Countries", "FR"], ["All Refs"], .allCustomers⟩).1 (by decide)

end OrderAnalysis
